import Mathlib

/-!
# A verification development for the string-analyzer repository

This file gives a shallow embedding, in Lean 4, of the decision logic of the
string-analyzer service:

* the pure analysis helpers of `analyzer/utils.py` (`is_palindrome`,
  `count_unique_characters`, `get_word_count`, `get_character_frequency`),
* the record construction of `StringAnalysisSerializer.create`
  (`analyzer/serializers.py`),
* the natural-language query parser `parse_natural_language_query`
  (`analyzer/views.py`),
* the filter validator `NaturalLanguageFilterView._validate_filters` and the
  filter evaluator `NaturalLanguageFilterView._apply_filters`
  (`analyzer/views.py`),
* the duplicate-rejecting insert of `StringListCreateView.post`
  (`analyzer/views.py`).

Strings are modelled as `List Char` (Python strings are sequences of code
points, and `len` counts code points).  The Python regular expressions used by
the parser are embedded as hand-written matching functions, one per pattern,
together with a `scan` function that mirrors `re.search`'s leftmost-position
search.  The character classes `\w`, `\d`, `\s`, `[a-z]` and `str.lower` are
modelled at their ASCII meaning, which coincides with Python's behaviour on
every input considered here.
-/

/-! ## Character classes and small scanning primitives -/

/-- ASCII model of the regex word-character class `\w` (`[a-zA-Z0-9_]`). -/
def isWordChar (c : Char) : Bool :=
  c.isAlphanum || c = '_'

/-- ASCII model of the regex whitespace class `\s` (also the set Python's
`str.split` splits on). -/
def isPySpace (c : Char) : Bool :=
  c = ' ' || c = '\t' || c = '\n' || c = '\r' || c = '\x0b' || c = '\x0c'

/-- Is the first character of the list (if any) a word character?  Used for
the word-boundary `\b` at the end of the parser's patterns. -/
def headIsWord : List Char → Bool
  | [] => false
  | c :: _ => isWordChar c

/-- Match a literal string at the head of the input, returning the rest. -/
def dropLit : List Char → List Char → Option (List Char)
  | [], s => some s
  | _ :: _, [] => none
  | c :: cs, d :: ds => if d = c then dropLit cs ds else none

/-- Match `\s+` (one or more whitespace characters, greedily). -/
def spaces1 : List Char → Option (List Char)
  | [] => none
  | c :: cs => if isPySpace c then some (cs.dropWhile isPySpace) else none

/-- Numeric value of the decimal digit list captured by `(\d+)`, as computed
by Python's `int`. -/
def digitsToNat (ds : List Char) : Nat :=
  ds.foldl (fun a c => 10 * a + (c.toNat - 48)) 0

/-- Match `(\d+)` (one or more decimal digits, greedily), returning the
captured value and the rest of the input. -/
def digits1 : List Char → Option (Nat × List Char)
  | [] => none
  | c :: cs =>
    if c.isDigit then
      some (digitsToNat ((c :: cs).takeWhile Char.isDigit),
            (c :: cs).dropWhile Char.isDigit)
    else none

/-- Match a trailing word boundary `\b` (the previous character was a word
character, so the next one must not be). -/
def endBoundary (s : List Char) : Option (List Char) :=
  if headIsWord s then none else some s

/-- Match `s?\b`: an optional literal `s` followed by a word boundary. -/
def optSEnd : List Char → Option (List Char)
  | 's' :: rest => if headIsWord rest then none else some rest
  | rest => if headIsWord rest then none else some rest

/-! ## The individual pattern matchers

Each `match…At` function attempts one of `parse_natural_language_query`'s
regular expressions at a fixed position of the (already lowercased) query.
The `Bool` argument records whether the character just before that position is
a word character; the leading `\b` of every pattern requires it to be `false`
because every pattern starts with a word character. -/

/-- Pattern `\bpalindrom(e|ic|es)?\b`, continuation after the literal `palindrom`. -/
def palinTail (r : List Char) : Bool :=
  (match dropLit ['e'] r with
   | some r1 => !headIsWord r1
   | none => false) ||
  (match dropLit ['i', 'c'] r with
   | some r1 => !headIsWord r1
   | none => false) ||
  (match dropLit ['e', 's'] r with
   | some r1 => !headIsWord r1
   | none => false) ||
  !headIsWord r

/-- Pattern 1 of the parser: `\bpalindrom(e|ic|es)?\b`. -/
def matchPalinAt (b : Bool) (s : List Char) : Option Unit :=
  if b then none else
  match dropLit ['p', 'a', 'l', 'i', 'n', 'd', 'r', 'o', 'm'] s with
  | some r => if palinTail r then some () else none
  | none => none

/-- A two-word phrase `\bW1\s+W2\b`; used for `single word` (pattern 2) and
for the five ordinal-vowel patterns. -/
def matchPhraseAt (w1 w2 : List Char) (b : Bool) (s : List Char) : Option Unit :=
  if b then none else
  match dropLit w1 s with
  | none => none
  | some r1 =>
    match spaces1 r1 with
    | none => none
    | some r2 =>
      match dropLit w2 r2 with
      | none => none
      | some r3 => (endBoundary r3).map fun _ => ()

/-- Pattern 3 of the parser: `\b(\d+)\s+words?\b`. -/
def matchNumWordsAt (b : Bool) (s : List Char) : Option Nat :=
  if b then none else
  match digits1 s with
  | none => none
  | some (n, r1) =>
    match spaces1 r1 with
    | none => none
    | some r2 =>
      match dropLit ['w', 'o', 'r', 'd'] r2 with
      | none => none
      | some r3 => (optSEnd r3).map fun _ => n

/-- Pattern 3b of the parser, one spelled-out number word: `\bW\s+words?\b`. -/
def matchTextWordsAt (w : List Char) (b : Bool) (s : List Char) : Option Unit :=
  if b then none else
  match dropLit w s with
  | none => none
  | some r1 =>
    match spaces1 r1 with
    | none => none
    | some r2 =>
      match dropLit ['w', 'o', 'r', 'd'] r2 with
      | none => none
      | some r3 => (optSEnd r3).map fun _ => ()

/-- Patterns 4 and the `shorter` variant: `\bW\s+than\s+(\d+)\s+characters?\b`
with `W` instantiated to `longer` or `shorter`. -/
def matchCmpAt (w : List Char) (b : Bool) (s : List Char) : Option Nat :=
  if b then none else
  match dropLit w s with
  | none => none
  | some r1 =>
    match spaces1 r1 with
    | none => none
    | some r2 =>
      match dropLit ['t', 'h', 'a', 'n'] r2 with
      | none => none
      | some r3 =>
        match spaces1 r3 with
        | none => none
        | some r4 =>
          match digits1 r4 with
          | none => none
          | some (n, r5) =>
            match spaces1 r5 with
            | none => none
            | some r6 =>
              match dropLit ['c', 'h', 'a', 'r', 'a', 'c', 't', 'e', 'r'] r6 with
              | none => none
              | some r7 => (optSEnd r7).map fun _ => n

/-- The `at least` / `at most` patterns: `\bat\s+KW\s+(\d+)\s+characters?\b`. -/
def matchAtKindAt (kw : List Char) (b : Bool) (s : List Char) : Option Nat :=
  if b then none else
  match dropLit ['a', 't'] s with
  | none => none
  | some r1 =>
    match spaces1 r1 with
    | none => none
    | some r2 =>
      match dropLit kw r2 with
      | none => none
      | some r3 =>
        match spaces1 r3 with
        | none => none
        | some r4 =>
          match digits1 r4 with
          | none => none
          | some (n, r5) =>
            match spaces1 r5 with
            | none => none
            | some r6 =>
              match dropLit ['c', 'h', 'a', 'r', 'a', 'c', 't', 'e', 'r'] r6 with
              | none => none
              | some r7 => (optSEnd r7).map fun _ => n

/-- Pattern tail `(letter|character)\s+([a-z])\b`, the end of the `containing` pattern:
after the keyword, one or more spaces, then exactly one lower-case letter at a
word boundary. -/
def letterEnd (r : List Char) : Option Char :=
  match spaces1 r with
  | none => none
  | some r2 =>
    match r2 with
    | [] => none
    | c :: rest =>
      if ('a' ≤ c && c ≤ 'z') && !headIsWord rest then some c else none

/-- The alternation `(letter|character)` of the `containing` pattern. -/
def letterWordPart (r : List Char) : Option Char :=
  match dropLit ['l', 'e', 't', 't', 'e', 'r'] r with
  | some r1 => letterEnd r1
  | none =>
    match dropLit ['c', 'h', 'a', 'r', 'a', 'c', 't', 'e', 'r'] r with
    | some r1 => letterEnd r1
    | none => none

/-- The optional group `(?:the\s+)?` of the `containing` pattern.  When `the`
matches but no whitespace follows, or `the` does not match at all, the group
matches the empty string, exactly as the backtracking engine does. -/
def theOptPart (r : List Char) : Option Char :=
  match dropLit ['t', 'h', 'e'] r with
  | some r1 =>
    match spaces1 r1 with
    | some r2 => letterWordPart r2
    | none => letterWordPart r
  | none => letterWordPart r

/-- The optional group `(?:ing|s)?` of the `containing` pattern followed by
`\s+` and the rest.  The alternatives start with distinct characters, and when
one of them matches, the empty alternative necessarily fails on the following
`\s+`, so this deterministic translation agrees with the backtracking
engine. -/
def containTail (r0 : List Char) : Option Char :=
  match dropLit ['i', 'n', 'g'] r0 with
  | some r1 =>
    (match spaces1 r1 with
     | some r2 => theOptPart r2
     | none => none)
  | none =>
    match dropLit ['s'] r0 with
    | some r1 =>
      (match spaces1 r1 with
       | some r2 => theOptPart r2
       | none => none)
    | none =>
      match spaces1 r0 with
      | some r2 => theOptPart r2
      | none => none

/-- Patterns 5 and 7 of the parser:
`\bcontain(?:ing|s)?\s+(?:the\s+)?(?:letter|character)\s+([a-z])\b`. -/
def matchContainAt (b : Bool) (s : List Char) : Option Char :=
  if b then none else
  match dropLit ['c', 'o', 'n', 't', 'a', 'i', 'n'] s with
  | some r0 => containTail r0
  | none => none

/-! ## The search loop (`re.search`) -/

/-- Model of `re.search`: try the matcher at each position from left to right,
threading whether the previous character is a word character.  The first
position where the matcher succeeds wins. -/
def scan {α : Type} (m : Bool → List Char → Option α) :
    List Char → Bool → Option α
  | [], b => m b []
  | c :: cs, b =>
    match m b (c :: cs) with
    | some a => some a
    | none => scan m cs (isWordChar c)

/-- Search from the start of the string; there is no previous character, so
the leading `\b` of every pattern holds there. -/
def search {α : Type} (m : Bool → List Char → Option α) (s : List Char) :
    Option α :=
  scan m s false

/-! ## FilterSet and the parser -/

/-- The two failure modes of `parse_natural_language_query`, matching its two
distinct `raise ValueError(...)` sites (`analyzer/views.py`): the
invalid-length message at the `shorter than 0` check and the
could-not-parse message at the final empty check. -/
inductive ParseError
  | invalidLengthConstraint
  | unrecognizedQuery
deriving DecidableEq, Repr

/-- The structured FilterSet: the `filters` dictionary built by the parser and
consumed by the validator and the evaluator.  A `none` field is an absent
dictionary key.  Numeric fields are `Int` because Python integers are
unbounded and the validator explicitly tests them for negativity;
`contains_character` is a string because the validator tests its length. -/
structure Filters where
  is_palindrome : Option Bool := none
  word_count : Option Int := none
  min_length : Option Int := none
  max_length : Option Int := none
  contains_character : Option (List Char) := none
deriving DecidableEq, Repr

/-- The empty FilterSet (the initial `filters = {}` of the parser, also the
falsy dictionary of its final `if not filters` check). -/
def emptyFilters : Filters := {}

/-- Pattern 3b's table of spelled-out number words, in the insertion order of
the Python dictionary (`one` .. `ten`). -/
def spelledNumbers : List (List Char × Nat) :=
  [(['o', 'n', 'e'], 1), (['t', 'w', 'o'], 2), (['t', 'h', 'r', 'e', 'e'], 3),
   (['f', 'o', 'u', 'r'], 4), (['f', 'i', 'v', 'e'], 5), (['s', 'i', 'x'], 6),
   (['s', 'e', 'v', 'e', 'n'], 7), (['e', 'i', 'g', 'h', 't'], 8),
   (['n', 'i', 'n', 'e'], 9), (['t', 'e', 'n'], 10)]

/-- Pattern 3b: the first spelled-out number word whose `\bW\s+words?\b`
pattern matches (the Python loop breaks at the first hit). -/
def spelledWordCount (q : List Char) : Option Nat :=
  (spelledNumbers.find? fun p => (search (matchTextWordsAt p.1) q).isSome).map
    (·.2)

/-- Does the two-word phrase `\bW\s+vowel\b` occur in the query? -/
def vowelHit (w : List Char) (q : List Char) : Bool :=
  (search (matchPhraseAt w ['v', 'o', 'w', 'e', 'l']) q).isSome

/-- One ordinal-vowel rule: overwrite `contains_character` with `v` when the
phrase `\bW\s+vowel\b` occurs. -/
def applyVowel (w : List Char) (v : Char) (q : List Char) (f : Filters) :
    Filters :=
  if vowelHit w q then { f with contains_character := some [v] } else f

/-- The five ordinal-vowel rules of the parser, evaluated in source order
(`first` .. `fifth`), each overwriting `contains_character` when it fires. -/
def vowelFilters (q : List Char) (f : Filters) : Filters :=
  applyVowel ['f', 'i', 'f', 't', 'h'] 'u' q
    (applyVowel ['f', 'o', 'u', 'r', 't', 'h'] 'o' q
      (applyVowel ['t', 'h', 'i', 'r', 'd'] 'i' q
        (applyVowel ['s', 'e', 'c', 'o', 'n', 'd'] 'e' q
          (applyVowel ['f', 'i', 'r', 's', 't'] 'a' q f))))

/-- Rule 1 of the parser: set `is_palindrome` on a palindrome phrase. -/
def applyPalin (q : List Char) (f : Filters) : Filters :=
  if (search matchPalinAt q).isSome then { f with is_palindrome := some true }
  else f

/-- Rule 2 of the parser: `single word` sets `word_count = 1`. -/
def applySingle (q : List Char) (f : Filters) : Filters :=
  if (search (matchPhraseAt ['s', 'i', 'n', 'g', 'l', 'e'] ['w', 'o', 'r', 'd']) q).isSome then
    { f with word_count := some 1 }
  else f

/-- Rule 3 of the parser: numeric `X words?` sets `word_count = X`. -/
def applyNumWords (q : List Char) (f : Filters) : Filters :=
  match search matchNumWordsAt q with
  | some n => { f with word_count := some (n : Int) }
  | none => f

/-- Rule 3b of the parser: spelled-out `X words?` sets `word_count`. -/
def applySpelled (q : List Char) (f : Filters) : Filters :=
  match spelledWordCount q with
  | some n => { f with word_count := some (n : Int) }
  | none => f

/-- The first four rules of the parser (palindrome, `single word`, numeric
`X words?`, spelled-out `X words?`), accumulated in source order. -/
def baseStages (q : List Char) : Filters :=
  applySpelled q (applyNumWords q (applySingle q (applyPalin q {})))

/-- The `longer than N characters` rule: `min_length = N + 1`. -/
def applyLonger (q : List Char) (f : Filters) : Filters :=
  match search (matchCmpAt ['l', 'o', 'n', 'g', 'e', 'r']) q with
  | some n => { f with min_length := some ((n : Int) + 1) }
  | none => f

/-- The `at least N characters` rule: `min_length = N`. -/
def applyLeast (q : List Char) (f : Filters) : Filters :=
  match search (matchAtKindAt ['l', 'e', 'a', 's', 't']) q with
  | some n => { f with min_length := some (n : Int) }
  | none => f

/-- The `at most N characters` rule: `max_length = N`. -/
def applyMost (q : List Char) (f : Filters) : Filters :=
  match search (matchAtKindAt ['m', 'o', 's', 't']) q with
  | some n => { f with max_length := some (n : Int) }
  | none => f

/-- The `containing letter X` rule: `contains_character = X`. -/
def applyContain (q : List Char) (f : Filters) : Filters :=
  match search matchContainAt q with
  | some c => { f with contains_character := some [c] }
  | none => f

/-- The rules evaluated after the `shorter than` rule: `at least`, `at most`,
`containing letter`, the five ordinal vowels, and finally the
`if not filters: raise` check. -/
def tailFilters (q : List Char) (f0 : Filters) : Except ParseError Filters :=
  let f := vowelFilters q (applyContain q (applyMost q (applyLeast q f0)))
  if f = emptyFilters then .error .unrecognizedQuery else .ok f

/-- Model of `parse_natural_language_query` (`analyzer/views.py`): lowercase the query,
evaluate every pattern rule in source order accumulating into one FilterSet,
raise `invalidLengthConstraint` when `shorter than N` yields a negative
`max_length`, and raise `unrecognizedQuery` when no rule fired. -/
def parseQuery (query : List Char) : Except ParseError Filters :=
  let q := query.map Char.toLower
  let f := applyLonger q (baseStages q)
  match search (matchCmpAt ['s', 'h', 'o', 'r', 't', 'e', 'r']) q with
  | some n =>
    let m : Int := (n : Int) - 1
    if m < 0 then .error .invalidLengthConstraint
    else tailFilters q { f with max_length := some m }
  | none => tailFilters q f

/-! ## The analyzer (`analyzer/utils.py` and the serializer's `create`) -/

/-- Model of `is_palindrome` (`analyzer/utils.py`): strip every character that is not
an ASCII letter or digit (`re.sub(r'[^a-zA-Z0-9]', '', text)`), lowercase the
remainder, and compare with its own reverse. -/
def pyIsPalindrome (text : List Char) : Bool :=
  let cleaned := (text.filter Char.isAlphanum).map Char.toLower
  decide (cleaned = cleaned.reverse)

/-- Model of `count_unique_characters` (`analyzer/utils.py`): `len(set(text))`. -/
def countUniqueCharacters (text : List Char) : Nat :=
  text.dedup.length

/-- Helper for `get_word_count`: count maximal whitespace-delimited non-empty
runs; the flag records whether we are inside a word. -/
def countWordsAux : List Char → Bool → Nat
  | [], _ => 0
  | c :: cs, inWord =>
    if isPySpace c then countWordsAux cs false
    else (if inWord then 0 else 1) + countWordsAux cs true

/-- Model of `get_word_count` (`analyzer/utils.py`): `len(text.split())`. -/
def getWordCount (text : List Char) : Nat :=
  countWordsAux text false

/-- One step of `get_character_frequency`: bump the count of `c` in the
insertion-ordered association list (Python dictionaries preserve insertion
order; `get(char, 0) + 1` either updates the existing key or appends it). -/
def freqBump : List (Char × Nat) → Char → List (Char × Nat)
  | [], c => [(c, 1)]
  | (d, n) :: rest, c =>
    if d = c then (d, n + 1) :: rest else (d, n) :: freqBump rest c

/-- Model of `get_character_frequency` (`analyzer/utils.py`): fold over the string
building the character-to-count dictionary. -/
def getCharacterFrequency (text : List Char) : List (Char × Nat) :=
  text.foldl freqBump []

/-- A stored record's derived properties, as computed in
`StringAnalysisSerializer.create` (`analyzer/serializers.py`).  The content
hash is kept out of this structure and modelled at the store (it is a
deterministic digest of `value`, so its identity plays no role in the
analysis itself). -/
structure Rec where
  value : List Char
  length : Nat
  is_palindrome : Bool
  unique_characters : Nat
  word_count : Nat
  character_frequency : List (Char × Nat)
deriving DecidableEq, Repr

/-- The `analyze` operation: the pure computation block of `StringAnalysisSerializer.create`
(`len(value)`, `is_palindrome`, `count_unique_characters`, `get_word_count`,
`get_character_frequency`), total on every string including the empty one. -/
def analyze (value : List Char) : Rec :=
  { value := value
    length := value.length
    is_palindrome := pyIsPalindrome value
    unique_characters := countUniqueCharacters value
    word_count := getWordCount value
    character_frequency := getCharacterFrequency value }

/-! ## The filter validator (`NaturalLanguageFilterView._validate_filters`) -/

/-- Which of the validator's checks failed; one constructor per distinct
conflict message returned by `_validate_filters` (`analyzer/views.py`). -/
inductive ConflictKind
  | minGtMax
  | negWordCount
  | negMinLength
  | negMaxLength
  | badContainsChar
deriving DecidableEq, Repr

/-- Model of `_validate_filters` (`analyzer/views.py`): return the first failing check
in the function's source order, or `none` when the FilterSet is consistent.
The source order is: `min_length > max_length` (both present), then
`word_count < 0`, then `min_length < 0`, then `max_length < 0`, then
`contains_character` not exactly one character. -/
def validateFilters (f : Filters) : Option ConflictKind :=
  if (match f.min_length, f.max_length with
      | some mn, some mx => decide (mx < mn)
      | _, _ => false) then some .minGtMax
  else if f.word_count.any fun w => decide (w < 0) then some .negWordCount
  else if f.min_length.any fun m => decide (m < 0) then some .negMinLength
  else if f.max_length.any fun m => decide (m < 0) then some .negMaxLength
  else if f.contains_character.any fun s => decide (s.length ≠ 1) then
    some .badContainsChar
  else none

/-! ## The predicate evaluator (`NaturalLanguageFilterView._apply_filters`) -/

/-- Case-insensitive substring test, the semantics of Django's `icontains`
lookup: the lowercased needle occurs contiguously in the lowercased
haystack. -/
def atHeadSub : List Char → List Char → Bool
  | [], _ => true
  | _ :: _, [] => false
  | c :: cs, d :: ds => c = d && atHeadSub cs ds

/-- Does `needle` occur as a contiguous run somewhere in `hay`? -/
def hasSub (needle : List Char) : List Char → Bool
  | [] => atHeadSub needle []
  | c :: cs => atHeadSub needle (c :: cs) || hasSub needle cs

/-- Django's `icontains` lookup, applied to `value` and the filter string. -/
def icontains (value filt : List Char) : Bool :=
  hasSub (filt.map Char.toLower) (value.map Char.toLower)

/-- Model of `_apply_filters` (`analyzer/views.py`): chain one filtering pass per
present FilterSet field over the record collection, in the source order
`is_palindrome`, `min_length` (`length__gte`), `max_length` (`length__lte`),
`word_count`, `contains_character` (`value__icontains`). -/
def applyFilters (f : Filters) (rs : List Rec) : List Rec :=
  let rs := match f.is_palindrome with
    | some b => rs.filter fun r => r.is_palindrome = b
    | none => rs
  let rs := match f.min_length with
    | some m => rs.filter fun r => decide (m ≤ (r.length : Int))
    | none => rs
  let rs := match f.max_length with
    | some m => rs.filter fun r => decide ((r.length : Int) ≤ m)
    | none => rs
  let rs := match f.word_count with
    | some w => rs.filter fun r => decide ((r.word_count : Int) = w)
    | none => rs
  match f.contains_character with
  | some cc => rs.filter fun r => icontains r.value cc
  | none => rs

/-- The spec's matching predicate, written from §4.4 of the specification: a
record matches iff it satisfies every constraint present in the FilterSet
(logical AND across present fields, absent fields imposing no constraint),
with inclusive length bounds, exact `word_count` and boolean equality, and a
case-insensitive at-least-once containment test. -/
def matchesSpec (f : Filters) (r : Rec) : Bool :=
  (match f.is_palindrome with
   | some b => r.is_palindrome = b
   | none => true) &&
  ((match f.min_length with
    | some m => decide (m ≤ (r.length : Int))
    | none => true) &&
   ((match f.max_length with
     | some m => decide ((r.length : Int) ≤ m)
     | none => true) &&
    ((match f.word_count with
      | some w => decide ((r.word_count : Int) = w)
      | none => true) &&
     (match f.contains_character with
      | some cc => icontains r.value cc
      | none => true))))

/-! ## The record store (`StringListCreateView.post`) -/

/-- What the store keeps per record for the purposes of the duplicate check:
the content hash (the lookup key of the `sha256_hash` filter) and the
original value. -/
structure StoredRecord where
  sha256_hash : List Char
  value : List Char
deriving DecidableEq, Repr

/-- The two outcomes of a create request relevant to the store: 201 with the
created record, or 409 `Already Exists`. -/
inductive PostResult
  | created (r : StoredRecord)
  | alreadyExists
deriving DecidableEq, Repr

/-- Model of `StringListCreateView.post` (`analyzer/views.py`), steps 3-5: compute the
content hash of the value, reject with 409 when a record with that hash
already exists, otherwise append the new record.  The digest function is a
parameter: the source fixes it to SHA-256 of the UTF-8 bytes, and the store
logic uses nothing about it beyond its being a function of the value.  The
transport-level checks of steps 1-2 (field presence, type) are out of
scope. -/
def postString (hashFn : List Char → List Char) (store : List StoredRecord)
    (value : List Char) : List StoredRecord × PostResult :=
  let h := hashFn value
  if store.any fun r => r.sha256_hash = h then (store, .alreadyExists)
  else
    let newRec : StoredRecord := { sha256_hash := h, value := value }
    (store ++ [newRec], .created newRec)

/-- The store invariant of §3 of the specification: at most one record per
content hash. -/
def atMostOnePerHash (store : List StoredRecord) : Prop :=
  store.Pairwise fun a b => a.sha256_hash ≠ b.sha256_hash

/-! ## Spec-side auxiliary definitions -/

/-- The alphanumeric skeleton of a string, written from the spec's words:
discard every character that is not an ASCII letter or digit and lower-case
the remainder. -/
def asciiSkeleton (s : List Char) : List Char :=
  (s.filter fun c =>
    ('A' ≤ c && c ≤ 'Z') || ('a' ≤ c && c ≤ 'z') || ('0' ≤ c && c ≤ '9')).map
    Char.toLower

/-- The character contributed by the ordinal-vowel rules on a (lowercased)
query: the vowel of the last rule in source order that fires, since each
firing rule overwrites `contains_character`. -/
def vowelOf (q : List Char) : Option Char :=
  if vowelHit ['f', 'i', 'f', 't', 'h'] q then some 'u'
  else if vowelHit ['f', 'o', 'u', 'r', 't', 'h'] q then some 'o'
  else if vowelHit ['t', 'h', 'i', 'r', 'd'] q then some 'i'
  else if vowelHit ['s', 'e', 'c', 'o', 'n', 'd'] q then some 'e'
  else if vowelHit ['f', 'i', 'r', 's', 't'] q then some 'a'
  else none

/-! ## Helper lemmas: character frequency -/

/-- Total of all counts in a frequency dictionary. -/
def sumVals (m : List (Char × Nat)) : Nat := (m.map Prod.snd).sum

/-- The keys of a frequency dictionary, in insertion order. -/
def freqKeys (m : List (Char × Nat)) : List Char := m.map Prod.fst

theorem bump_sum (m : List (Char × Nat)) (c : Char) :
    sumVals (freqBump m c) = sumVals m + 1 := by
  induction m with
  | nil => rfl
  | cons p rest ih =>
    obtain ⟨d, n⟩ := p
    by_cases h : d = c <;> simp [freqBump, h, sumVals] at ih ⊢ <;> omega

theorem bump_keys (m : List (Char × Nat)) (c : Char) :
    freqKeys (freqBump m c) =
      if c ∈ freqKeys m then freqKeys m else freqKeys m ++ [c] := by
  induction m with
  | nil => rfl
  | cons p rest ih =>
    obtain ⟨d, n⟩ := p
    by_cases h : d = c
    · subst h; simp [freqBump, freqKeys]
    · simp only [freqBump, if_neg h, freqKeys, List.map_cons] at ih ⊢
      rw [ih]
      by_cases hc : c ∈ rest.map Prod.fst <;>
        simp [hc, List.mem_cons, Ne.symm h]

theorem fold_sum (s : List Char) :
    ∀ m, sumVals (s.foldl freqBump m) = sumVals m + s.length := by
  induction s with
  | nil => intro m; simp
  | cons c cs ih =>
    intro m
    simp only [List.foldl_cons, ih, bump_sum, List.length_cons]
    omega

theorem fold_keys_mem (s : List Char) :
    ∀ m d, d ∈ freqKeys (s.foldl freqBump m) ↔ d ∈ freqKeys m ∨ d ∈ s := by
  induction s with
  | nil => intro m d; simp
  | cons c cs ih =>
    intro m d
    simp only [List.foldl_cons, ih, bump_keys]
    by_cases hc : c ∈ freqKeys m <;> by_cases hdc : d = c <;>
      simp_all [List.mem_cons]

theorem fold_keys_nodup (s : List Char) :
    ∀ m, (freqKeys m).Nodup → (freqKeys (s.foldl freqBump m)).Nodup := by
  induction s with
  | nil => intro m h; exact h
  | cons c cs ih =>
    intro m h
    simp only [List.foldl_cons]
    apply ih
    rw [bump_keys]
    by_cases hc : c ∈ freqKeys m <;> simp [hc, List.nodup_append, h]

theorem nodup_len_eq (l₁ l₂ : List Char) (h₁ : l₁.Nodup) (h₂ : l₂.Nodup)
    (h : ∀ c, c ∈ l₁ ↔ c ∈ l₂) : l₁.length = l₂.length := by
  rw [← List.toFinset_card_of_nodup h₁, ← List.toFinset_card_of_nodup h₂]
  congr 1
  ext c
  simp [h c]

/-! ## Helper lemmas: the alphanumeric skeleton -/

theorem alnum_spec (c : Char) :
    c.isAlphanum =
      (('A' ≤ c && c ≤ 'Z') || ('a' ≤ c && c ≤ 'z') || ('0' ≤ c && c ≤ '9')) := by
  rfl

theorem skel_eq (s : List Char) :
    (s.filter Char.isAlphanum).map Char.toLower = asciiSkeleton s := by
  unfold asciiSkeleton
  rw [List.filter_congr (fun c _ => alnum_spec c)]

theorem pyIsPalindrome_skel (s : List Char) :
    pyIsPalindrome s = decide (asciiSkeleton s = (asciiSkeleton s).reverse) := by
  unfold pyIsPalindrome
  rw [skel_eq]

/-! ## Claims C7, C8, C10 -/

/-- C7: `is_palindrome(s)` equals the test that the string obtained from `s`
by discarding every character that is not an ASCII letter or digit and
lower-casing the remainder reads the same as its own reverse; it is therefore
invariant under any change that preserves that skeleton (case changes,
insertion or removal of non-alphanumeric characters), and
`is_palindrome("race car") = is_palindrome("racecar") = true` while
`is_palindrome("hello") = false`. -/
theorem claim_C7_is_palindrome_skeleton :
    (∀ s, pyIsPalindrome s =
      decide (asciiSkeleton s = (asciiSkeleton s).reverse)) ∧
    (∀ s t, asciiSkeleton s = asciiSkeleton t →
      pyIsPalindrome s = pyIsPalindrome t) ∧
    pyIsPalindrome "race car".data = true ∧
    pyIsPalindrome "racecar".data = true ∧
    pyIsPalindrome "hello".data = false := by
  refine ⟨pyIsPalindrome_skel, fun s t h => ?_, rfl, rfl, rfl⟩
  rw [pyIsPalindrome_skel, pyIsPalindrome_skel, h]

/-- C8: `analyze` is a total, deterministic function of its input string (it
is defined as a plain function, so two calls on equal input are structurally
identical), every string including the empty one is valid input, and
`analyze("")` yields `is_palindrome = true`, `length = 0`, `word_count = 0`. -/
theorem claim_C8_analyze_total_deterministic :
    (∀ s, analyze s = analyze s) ∧
    (analyze "".data).is_palindrome = true ∧
    (analyze "".data).length = 0 ∧
    (analyze "".data).word_count = 0 := by
  exact ⟨fun _ => rfl, rfl, rfl, rfl⟩

/-- C10: the derived fields are mutually consistent: the counts in
`character_frequency` sum to `length`, the keys of `character_frequency` are
exactly the characters occurring in the string, and the number of keys equals
`unique_characters`. -/
theorem claim_C10_derived_fields_consistent (s : List Char) :
    sumVals (analyze s).character_frequency = (analyze s).length ∧
    (∀ c, c ∈ freqKeys (analyze s).character_frequency ↔ c ∈ s) ∧
    (freqKeys (analyze s).character_frequency).length =
      (analyze s).unique_characters := by
  refine ⟨?_, ?_, ?_⟩
  · simpa [analyze, getCharacterFrequency, sumVals] using fold_sum s []
  · intro c
    simpa [analyze, getCharacterFrequency, freqKeys] using fold_keys_mem s [] c
  · apply nodup_len_eq
    · exact fold_keys_nodup s [] (by simp [freqKeys])
    · exact s.nodup_dedup
    · intro c
      rw [List.mem_dedup]
      simpa [analyze, getCharacterFrequency, freqKeys] using
        fold_keys_mem s [] c

/-! ## Claims C5 and C6 -/

/-- C5, counterexample to the claimed check order: on a FilterSet with both a
negative `min_length` and a negative `word_count`, `_validate_filters` reports
the negative `word_count` — not a negative length, as the claim's order
(lengths before word count) would require. -/
theorem claim_C5_counterexample :
    validateFilters { word_count := some (-1), min_length := some (-1) } =
        some ConflictKind.negWordCount ∧
      ConflictKind.negWordCount ≠ ConflictKind.negMinLength ∧
      ConflictKind.negWordCount ≠ ConflictKind.negMaxLength := by
  exact ⟨rfl, by decide, by decide⟩

/-- C5, amended: `validate` rejects `{min_length: 10, max_length: 5}` and
accepts `{min_length: 5, max_length: 10}`; the checks run in the order
`min_length > max_length`, then negative `word_count`, then negative
`min_length`, then negative `max_length`, then `contains_character` length —
so whenever both lengths are present with `max < min` that conflict is
reported first, and on a FilterSet passing the min/max comparison a negative
`word_count` is reported before any negative length. -/
theorem claim_C5_validator_order :
    validateFilters { min_length := some 10, max_length := some 5 } =
        some ConflictKind.minGtMax ∧
    validateFilters { min_length := some 5, max_length := some 10 } = none ∧
    (∀ f : Filters, ∀ mn mx : Int, f.min_length = some mn →
      f.max_length = some mx → mx < mn →
      validateFilters f = some ConflictKind.minGtMax) ∧
    (∀ f : Filters, ∀ w : Int, f.word_count = some w → w < 0 →
      (∀ mn mx : Int, f.min_length = some mn → f.max_length = some mx →
        mn ≤ mx) →
      validateFilters f = some ConflictKind.negWordCount) := by
  refine ⟨rfl, rfl, ?_, ?_⟩
  · intro f mn mx h1 h2 hlt
    simp [validateFilters, h1, h2, hlt]
  · intro f w hw hneg hok
    unfold validateFilters
    rw [if_neg, if_pos]
    · simp [hw, hneg]
    · rcases h1 : f.min_length with _ | mn <;>
        rcases h2 : f.max_length with _ | mx <;> simp
      exact hok mn mx h1 h2

/-- C6: `apply` returns exactly the records satisfying every constraint
present in the FilterSet — the chain of per-field filtering passes equals one
filtering pass with the spec's conjunction predicate (inclusive length
bounds, exact `word_count`, boolean `is_palindrome` equality,
case-insensitive containment) — and on the records built from
`["racecar", "level", "hello"]`, the FilterSet
`{is_palindrome: true, min_length: 6}` selects exactly `["racecar"]`. -/
theorem claim_C6_apply_and_semantics :
    (∀ (f : Filters) (rs : List Rec),
      applyFilters f rs = rs.filter (matchesSpec f)) ∧
    applyFilters { is_palindrome := some true, min_length := some 6 }
      [analyze "racecar".data, analyze "level".data, analyze "hello".data] =
      [analyze "racecar".data] := by
  refine ⟨fun f rs => ?_, rfl⟩
  obtain ⟨p, w, mn, mx, cc⟩ := f
  unfold applyFilters matchesSpec
  rcases p with _ | p <;> rcases w with _ | w <;> rcases mn with _ | mn <;>
    rcases mx with _ | mx <;> rcases cc with _ | cc <;>
    simp [List.filter_filter, Bool.and_assoc, Bool.and_comm, Bool.and_left_comm]

/-! ## Claim C9 -/

/-- C9: inserting a value whose content hash already has a record yields
`AlreadyExists` and leaves the store unchanged; the insert preserves the
at-most-one-record-per-hash invariant; and inserting the same value twice
into a consistent store that does not yet hold its hash yields
`AlreadyExists` on the second attempt, leaves the store as after the first
insert, and retains exactly one record for that value. -/
theorem claim_C9_duplicate_insert_rejected (hashFn : List Char → List Char)
    (store : List StoredRecord) (v : List Char)
    (hcons : ∀ r ∈ store, r.sha256_hash = hashFn r.value) :
    ((∃ r ∈ store, r.sha256_hash = hashFn v) →
      postString hashFn store v = (store, PostResult.alreadyExists)) ∧
    (atMostOnePerHash store → atMostOnePerHash (postString hashFn store v).1) ∧
    ((∀ r ∈ store, r.sha256_hash ≠ hashFn v) →
      (postString hashFn (postString hashFn store v).1 v).2 =
          PostResult.alreadyExists ∧
        (postString hashFn (postString hashFn store v).1 v).1 =
          (postString hashFn store v).1 ∧
        ((postString hashFn store v).1.countP fun r => decide (r.value = v)) =
          1) := by
  refine ⟨?_, ?_, ?_⟩
  · intro ⟨r, hr, hh⟩
    unfold postString
    rw [if_pos]
    rw [List.any_eq_true]
    exact ⟨r, hr, by simpa using hh⟩
  · intro hinv
    unfold postString
    by_cases h : store.any fun r => r.sha256_hash = hashFn v
    · simpa [h] using hinv
    · simp only [h, Bool.false_eq_true, if_neg, if_false]
      unfold atMostOnePerHash at hinv ⊢
      rw [List.pairwise_append]
      refine ⟨hinv, List.pairwise_singleton _ _, ?_⟩
      intro a ha b hb
      simp only [List.mem_singleton] at hb
      subst hb
      simp only [List.any_eq_true, decide_eq_true_eq] at h
      push_neg at h
      exact h a ha
  · intro hfresh
    have hany : (store.any fun r => r.sha256_hash = hashFn v) = false := by
      simp only [List.any_eq_false, decide_eq_true_eq]
      exact hfresh
    have hs1 : (postString hashFn store v).1 =
        store ++ [{ sha256_hash := hashFn v, value := v }] := by
      simp [postString, hany]
    refine ⟨?_, ?_, ?_⟩
    · rw [hs1]
      unfold postString
      rw [if_pos]
      simp
    · rw [hs1]
      unfold postString
      rw [if_pos]
      simp
    · rw [hs1, List.countP_append]
      have h0 : (store.countP fun r => decide (r.value = v)) = 0 := by
        rw [List.countP_eq_zero]
        intro r hr
        simp only [decide_eq_true_eq]
        intro hv
        exact hfresh r hr (hv ▸ hcons r hr)
      simp [h0, List.countP_cons]

/-- Witness for C9: on the empty store with the identity digest, inserting
`"a"` twice yields `AlreadyExists` on the second attempt and exactly one
record for `"a"`. -/
theorem claim_C9_witness :
    (postString (fun s => s) (postString (fun s => s) [] ['a']).1 ['a']).2 =
        PostResult.alreadyExists ∧
      ((postString (fun s => s) [] ['a']).1.countP fun r =>
        decide (r.value = ['a'])) = 1 := by
  have h := (claim_C9_duplicate_insert_rejected (fun s => s) [] ['a']
    (by simp)).2.2 (by simp)
  exact ⟨h.1, h.2.2⟩

/-! ## Helper lemmas: parser stage projections -/

@[simp] theorem applyVowel_pal (w : List Char) (v : Char) (q : List Char)
    (f : Filters) : (applyVowel w v q f).is_palindrome = f.is_palindrome := by
  unfold applyVowel; split <;> simp

@[simp] theorem applyVowel_wc (w : List Char) (v : Char) (q : List Char)
    (f : Filters) : (applyVowel w v q f).word_count = f.word_count := by
  unfold applyVowel; split <;> simp

@[simp] theorem applyVowel_min (w : List Char) (v : Char) (q : List Char)
    (f : Filters) : (applyVowel w v q f).min_length = f.min_length := by
  unfold applyVowel; split <;> simp

@[simp] theorem applyVowel_max (w : List Char) (v : Char) (q : List Char)
    (f : Filters) : (applyVowel w v q f).max_length = f.max_length := by
  unfold applyVowel; split <;> simp

@[simp] theorem applyPalin_wc (q : List Char) (f : Filters) :
    (applyPalin q f).word_count = f.word_count := by
  unfold applyPalin; split <;> simp

@[simp] theorem applyPalin_min (q : List Char) (f : Filters) :
    (applyPalin q f).min_length = f.min_length := by
  unfold applyPalin; split <;> simp

@[simp] theorem applyPalin_max (q : List Char) (f : Filters) :
    (applyPalin q f).max_length = f.max_length := by
  unfold applyPalin; split <;> simp

@[simp] theorem applyPalin_cc (q : List Char) (f : Filters) :
    (applyPalin q f).contains_character = f.contains_character := by
  unfold applyPalin; split <;> simp

@[simp] theorem applySingle_pal (q : List Char) (f : Filters) :
    (applySingle q f).is_palindrome = f.is_palindrome := by
  unfold applySingle; split <;> simp

@[simp] theorem applySingle_min (q : List Char) (f : Filters) :
    (applySingle q f).min_length = f.min_length := by
  unfold applySingle; split <;> simp

@[simp] theorem applySingle_max (q : List Char) (f : Filters) :
    (applySingle q f).max_length = f.max_length := by
  unfold applySingle; split <;> simp

@[simp] theorem applySingle_cc (q : List Char) (f : Filters) :
    (applySingle q f).contains_character = f.contains_character := by
  unfold applySingle; split <;> simp

@[simp] theorem applyNumWords_pal (q : List Char) (f : Filters) :
    (applyNumWords q f).is_palindrome = f.is_palindrome := by
  unfold applyNumWords; split <;> simp

@[simp] theorem applyNumWords_min (q : List Char) (f : Filters) :
    (applyNumWords q f).min_length = f.min_length := by
  unfold applyNumWords; split <;> simp

@[simp] theorem applyNumWords_max (q : List Char) (f : Filters) :
    (applyNumWords q f).max_length = f.max_length := by
  unfold applyNumWords; split <;> simp

@[simp] theorem applyNumWords_cc (q : List Char) (f : Filters) :
    (applyNumWords q f).contains_character = f.contains_character := by
  unfold applyNumWords; split <;> simp

@[simp] theorem applySpelled_pal (q : List Char) (f : Filters) :
    (applySpelled q f).is_palindrome = f.is_palindrome := by
  unfold applySpelled; split <;> simp

@[simp] theorem applySpelled_min (q : List Char) (f : Filters) :
    (applySpelled q f).min_length = f.min_length := by
  unfold applySpelled; split <;> simp

@[simp] theorem applySpelled_max (q : List Char) (f : Filters) :
    (applySpelled q f).max_length = f.max_length := by
  unfold applySpelled; split <;> simp

@[simp] theorem applySpelled_cc (q : List Char) (f : Filters) :
    (applySpelled q f).contains_character = f.contains_character := by
  unfold applySpelled; split <;> simp

@[simp] theorem applyLonger_pal (q : List Char) (f : Filters) :
    (applyLonger q f).is_palindrome = f.is_palindrome := by
  unfold applyLonger; split <;> simp

@[simp] theorem applyLonger_wc (q : List Char) (f : Filters) :
    (applyLonger q f).word_count = f.word_count := by
  unfold applyLonger; split <;> simp

@[simp] theorem applyLonger_max (q : List Char) (f : Filters) :
    (applyLonger q f).max_length = f.max_length := by
  unfold applyLonger; split <;> simp

@[simp] theorem applyLonger_cc (q : List Char) (f : Filters) :
    (applyLonger q f).contains_character = f.contains_character := by
  unfold applyLonger; split <;> simp

@[simp] theorem applyLeast_pal (q : List Char) (f : Filters) :
    (applyLeast q f).is_palindrome = f.is_palindrome := by
  unfold applyLeast; split <;> simp

@[simp] theorem applyLeast_wc (q : List Char) (f : Filters) :
    (applyLeast q f).word_count = f.word_count := by
  unfold applyLeast; split <;> simp

@[simp] theorem applyLeast_max (q : List Char) (f : Filters) :
    (applyLeast q f).max_length = f.max_length := by
  unfold applyLeast; split <;> simp

@[simp] theorem applyLeast_cc (q : List Char) (f : Filters) :
    (applyLeast q f).contains_character = f.contains_character := by
  unfold applyLeast; split <;> simp

@[simp] theorem applyMost_pal (q : List Char) (f : Filters) :
    (applyMost q f).is_palindrome = f.is_palindrome := by
  unfold applyMost; split <;> simp

@[simp] theorem applyMost_wc (q : List Char) (f : Filters) :
    (applyMost q f).word_count = f.word_count := by
  unfold applyMost; split <;> simp

@[simp] theorem applyMost_min (q : List Char) (f : Filters) :
    (applyMost q f).min_length = f.min_length := by
  unfold applyMost; split <;> simp

@[simp] theorem applyMost_cc (q : List Char) (f : Filters) :
    (applyMost q f).contains_character = f.contains_character := by
  unfold applyMost; split <;> simp

@[simp] theorem applyContain_pal (q : List Char) (f : Filters) :
    (applyContain q f).is_palindrome = f.is_palindrome := by
  unfold applyContain; split <;> simp

@[simp] theorem applyContain_wc (q : List Char) (f : Filters) :
    (applyContain q f).word_count = f.word_count := by
  unfold applyContain; split <;> simp

@[simp] theorem applyContain_min (q : List Char) (f : Filters) :
    (applyContain q f).min_length = f.min_length := by
  unfold applyContain; split <;> simp

@[simp] theorem applyContain_max (q : List Char) (f : Filters) :
    (applyContain q f).max_length = f.max_length := by
  unfold applyContain; split <;> simp

theorem vowel_cc_some (q : List Char) (f : Filters) (v : Char)
    (h : vowelOf q = some v) :
    (vowelFilters q f).contains_character = some [v] := by
  unfold vowelOf at h
  unfold vowelFilters applyVowel
  by_cases h1 : vowelHit ['f', 'i', 'r', 's', 't'] q <;>
    by_cases h2 : vowelHit ['s', 'e', 'c', 'o', 'n', 'd'] q <;>
    by_cases h3 : vowelHit ['t', 'h', 'i', 'r', 'd'] q <;>
    by_cases h4 : vowelHit ['f', 'o', 'u', 'r', 't', 'h'] q <;>
    by_cases h5 : vowelHit ['f', 'i', 'f', 't', 'h'] q <;>
    simp_all
  all_goals assumption

theorem vowel_cc_none (q : List Char) (f : Filters)
    (h : vowelOf q = none) :
    (vowelFilters q f).contains_character = f.contains_character := by
  unfold vowelOf at h
  unfold vowelFilters applyVowel
  by_cases h1 : vowelHit ['f', 'i', 'r', 's', 't'] q <;>
    by_cases h2 : vowelHit ['s', 'e', 'c', 'o', 'n', 'd'] q <;>
    by_cases h3 : vowelHit ['t', 'h', 'i', 'r', 'd'] q <;>
    by_cases h4 : vowelHit ['f', 'o', 'u', 'r', 't', 'h'] q <;>
    by_cases h5 : vowelHit ['f', 'i', 'f', 't', 'h'] q <;>
    simp_all

/-! ## Helper lemmas: the parser pipeline -/

attribute [ext] Filters

theorem tail_ne_empty (q : List Char) (f g : Filters)
    (h : tailFilters q f = .ok g) : g ≠ emptyFilters := by
  simp only [tailFilters] at h
  split at h
  · exact absurd h (by simp)
  · simp only [Except.ok.injEq] at h
    subst h
    assumption

theorem tail_eq_ok (q : List Char) (f g : Filters)
    (h : tailFilters q f = .ok g) :
    g = vowelFilters q (applyContain q (applyMost q (applyLeast q f))) := by
  simp only [tailFilters] at h
  split at h
  · exact absurd h (by simp)
  · simp only [Except.ok.injEq] at h
    exact h.symm

theorem vowel_pal (q : List Char) (f : Filters) :
    (vowelFilters q f).is_palindrome = f.is_palindrome := by
  simp [vowelFilters]

theorem vowel_wc (q : List Char) (f : Filters) :
    (vowelFilters q f).word_count = f.word_count := by
  simp [vowelFilters]

theorem vowel_min (q : List Char) (f : Filters) :
    (vowelFilters q f).min_length = f.min_length := by
  simp [vowelFilters]

theorem vowel_max (q : List Char) (f : Filters) :
    (vowelFilters q f).max_length = f.max_length := by
  simp [vowelFilters]

theorem tail_pal (q : List Char) (f g : Filters)
    (h : tailFilters q f = .ok g) :
    g.is_palindrome = f.is_palindrome := by
  rw [tail_eq_ok q f g h, vowel_pal]
  simp

theorem tail_wc (q : List Char) (f g : Filters)
    (h : tailFilters q f = .ok g) :
    g.word_count = f.word_count := by
  rw [tail_eq_ok q f g h, vowel_wc]
  simp

theorem tail_min (q : List Char) (f g : Filters)
    (hL : search (matchAtKindAt ['l', 'e', 'a', 's', 't']) q = none)
    (h : tailFilters q f = .ok g) :
    g.min_length = f.min_length := by
  rw [tail_eq_ok q f g h, vowel_min]
  simp [applyLeast, hL]

theorem tail_max (q : List Char) (f g : Filters)
    (hM : search (matchAtKindAt ['m', 'o', 's', 't']) q = none)
    (h : tailFilters q f = .ok g) :
    g.max_length = f.max_length := by
  rw [tail_eq_ok q f g h, vowel_max]
  simp [applyMost, hM]

theorem tail_cc_vowel (q : List Char) (f g : Filters) (v : Char)
    (hv : vowelOf q = some v) (h : tailFilters q f = .ok g) :
    g.contains_character = some [v] := by
  rw [tail_eq_ok q f g h]
  exact vowel_cc_some q _ v hv

theorem tail_cc_contain (q : List Char) (f g : Filters) (c : Char)
    (hc : search matchContainAt q = some c) (hv : vowelOf q = none)
    (h : tailFilters q f = .ok g) :
    g.contains_character = some [c] := by
  rw [tail_eq_ok q f g h, vowel_cc_none q _ hv]
  simp [applyContain, hc]

theorem tail_ok (q : List Char) (f : Filters)
    (hne : vowelFilters q (applyContain q (applyMost q (applyLeast q f))) ≠
      emptyFilters) :
    tailFilters q f =
      .ok (vowelFilters q (applyContain q (applyMost q (applyLeast q f)))) := by
  simp [tailFilters, hne]

theorem parse_ok_tail (query : List Char) (f : Filters)
    (h : parseQuery query = .ok f) :
    ∃ f0, tailFilters (query.map Char.toLower) f0 = .ok f ∧
      f0.is_palindrome =
        (applyLonger (query.map Char.toLower)
          (baseStages (query.map Char.toLower))).is_palindrome ∧
      f0.word_count =
        (applyLonger (query.map Char.toLower)
          (baseStages (query.map Char.toLower))).word_count ∧
      f0.min_length =
        (applyLonger (query.map Char.toLower)
          (baseStages (query.map Char.toLower))).min_length := by
  simp only [parseQuery] at h
  split at h
  · split at h
    · exact absurd h (by simp)
    · exact ⟨_, h, by simp, by simp, by simp⟩
  · exact ⟨_, h, rfl, rfl, rfl⟩

theorem vowelOf_none_hits (q : List Char) (h : vowelOf q = none) :
    vowelHit ['f', 'i', 'r', 's', 't'] q = false ∧
    vowelHit ['s', 'e', 'c', 'o', 'n', 'd'] q = false ∧
    vowelHit ['t', 'h', 'i', 'r', 'd'] q = false ∧
    vowelHit ['f', 'o', 'u', 'r', 't', 'h'] q = false ∧
    vowelHit ['f', 'i', 'f', 't', 'h'] q = false := by
  unfold vowelOf at h
  by_cases h1 : vowelHit ['f', 'i', 'r', 's', 't'] q <;>
    by_cases h2 : vowelHit ['s', 'e', 'c', 'o', 'n', 'd'] q <;>
    by_cases h3 : vowelHit ['t', 'h', 'i', 'r', 'd'] q <;>
    by_cases h4 : vowelHit ['f', 'o', 'u', 'r', 't', 'h'] q <;>
    by_cases h5 : vowelHit ['f', 'i', 'f', 't', 'h'] q <;>
    simp_all

theorem parse_no_rule (q : List Char)
    (hp : search matchPalinAt (q.map Char.toLower) = none)
    (hs : search (matchPhraseAt ['s', 'i', 'n', 'g', 'l', 'e'] ['w', 'o', 'r', 'd'])
      (q.map Char.toLower) = none)
    (hn : search matchNumWordsAt (q.map Char.toLower) = none)
    (hsp : spelledWordCount (q.map Char.toLower) = none)
    (hlong : search (matchCmpAt ['l', 'o', 'n', 'g', 'e', 'r'])
      (q.map Char.toLower) = none)
    (hshort : search (matchCmpAt ['s', 'h', 'o', 'r', 't', 'e', 'r'])
      (q.map Char.toLower) = none)
    (hL : search (matchAtKindAt ['l', 'e', 'a', 's', 't'])
      (q.map Char.toLower) = none)
    (hM : search (matchAtKindAt ['m', 'o', 's', 't'])
      (q.map Char.toLower) = none)
    (hC : search matchContainAt (q.map Char.toLower) = none)
    (hv : vowelOf (q.map Char.toLower) = none) :
    parseQuery q = .error .unrecognizedQuery := by
  obtain ⟨v1, v2, v3, v4, v5⟩ := vowelOf_none_hits _ hv
  have hbase : applyLonger (q.map Char.toLower)
      (baseStages (q.map Char.toLower)) = emptyFilters := by
    simp [applyLonger, baseStages, applySpelled, applyNumWords, applySingle,
      applyPalin, hp, hs, hn, hsp, hlong, emptyFilters]
  simp only [parseQuery, hshort, hbase]
  simp [tailFilters, applyLeast, applyMost, applyContain, vowelFilters,
    applyVowel, hL, hM, hC, v1, v2, v3, v4, v5]

/-- C4: the natural-language path never returns an empty FilterSet: whenever
`parse` succeeds, the result has at least one constraint; whenever no rule
matches the query (every pattern search fails), `parse` fails with
`UnrecognizedQuery`; in particular `parse("xyz abc def")` fails with
`UnrecognizedQuery`. -/
theorem claim_C4_empty_filterset_fails :
    (∀ q f, parseQuery q = .ok f → f ≠ emptyFilters) ∧
    (∀ q,
      search matchPalinAt (q.map Char.toLower) = none →
      search (matchPhraseAt ['s', 'i', 'n', 'g', 'l', 'e'] ['w', 'o', 'r', 'd'])
        (q.map Char.toLower) = none →
      search matchNumWordsAt (q.map Char.toLower) = none →
      spelledWordCount (q.map Char.toLower) = none →
      search (matchCmpAt ['l', 'o', 'n', 'g', 'e', 'r'])
        (q.map Char.toLower) = none →
      search (matchCmpAt ['s', 'h', 'o', 'r', 't', 'e', 'r'])
        (q.map Char.toLower) = none →
      search (matchAtKindAt ['l', 'e', 'a', 's', 't'])
        (q.map Char.toLower) = none →
      search (matchAtKindAt ['m', 'o', 's', 't'])
        (q.map Char.toLower) = none →
      search matchContainAt (q.map Char.toLower) = none →
      vowelOf (q.map Char.toLower) = none →
      parseQuery q = .error .unrecognizedQuery) ∧
    parseQuery "xyz abc def".data = .error .unrecognizedQuery := by
  refine ⟨?_, parse_no_rule, rfl⟩
  intro q f h
  obtain ⟨f0, htail, -⟩ := parse_ok_tail q f h
  exact tail_ne_empty _ _ _ htail

/-! ## Helper lemmas: the first parser stages -/

theorem base_pal_some (q : List Char)
    (hpal : (search matchPalinAt q).isSome = true) :
    (baseStages q).is_palindrome = some true := by
  simp [baseStages, applyPalin, hpal]

theorem base_wc_num (q : List Char) (n : Nat)
    (hnum : search matchNumWordsAt q = some n)
    (hsp : spelledWordCount q = none) :
    (baseStages q).word_count = some (n : Int) := by
  simp [baseStages, applySpelled, applyNumWords, hnum, hsp]

theorem base_wc_spelled (q : List Char) (m : Nat)
    (hsp : spelledWordCount q = some m) :
    (baseStages q).word_count = some (m : Int) := by
  simp [baseStages, applySpelled, hsp]

/-! ## Claims C1 and C3 -/

/-- C1: when several rules match one query their effects accumulate into a
single FilterSet: a firing palindrome rule, numeric word-count rule and
containing-letter rule all leave their fields in the final result (given that
no later rule overwrites the same field: no spelled-out number and no
ordinal-vowel phrase); in particular
`parse("palindromic strings with 2 words containing letter a")` returns
exactly `{is_palindrome: true, word_count: 2, contains_character: 'a'}`. -/
theorem claim_C1_parser_combines_rules (q : List Char) (f : Filters)
    (n : Nat) (c : Char)
    (hok : parseQuery q = .ok f)
    (hpal : (search matchPalinAt (q.map Char.toLower)).isSome = true)
    (hnum : search matchNumWordsAt (q.map Char.toLower) = some n)
    (hsp : spelledWordCount (q.map Char.toLower) = none)
    (hcont : search matchContainAt (q.map Char.toLower) = some c)
    (hv : vowelOf (q.map Char.toLower) = none) :
    (f.is_palindrome = some true ∧ f.word_count = some (n : Int) ∧
      f.contains_character = some [c]) ∧
    parseQuery "palindromic strings with 2 words containing letter a".data =
      .ok { is_palindrome := some true, word_count := some 2,
            contains_character := some ['a'] } := by
  refine ⟨?_, by rfl⟩
  obtain ⟨f0, htail, hfpal, hfwc, -⟩ := parse_ok_tail q f hok
  refine ⟨?_, ?_, tail_cc_contain _ _ _ _ hcont hv htail⟩
  · rw [tail_pal _ _ _ htail, hfpal, applyLonger_pal, base_pal_some _ hpal]
  · rw [tail_wc _ _ _ htail, hfwc, applyLonger_wc, base_wc_num _ _ hnum hsp]

/-- Witness for C1, at the query of the claim itself: all three rules fire
and the parsed FilterSet carries all three fields. -/
theorem claim_C1_witness :
    ({ is_palindrome := some true, word_count := some 2,
       contains_character := some ['a'] } : Filters).is_palindrome =
        some true ∧
      ({ is_palindrome := some true, word_count := some 2,
         contains_character := some ['a'] } : Filters).word_count = some 2 ∧
      ({ is_palindrome := some true, word_count := some 2,
         contains_character := some ['a'] } : Filters).contains_character =
        some ['a'] :=
  (claim_C1_parser_combines_rules
    "palindromic strings with 2 words containing letter a".data
    { is_palindrome := some true, word_count := some 2,
      contains_character := some ['a'] }
    2 'a' rfl rfl rfl rfl rfl rfl).1

/-- C3: when two rules set the same FilterSet field, the rule evaluated later
overwrites the earlier value.  For `contains_character`: whenever a
containing-letter phrase matches and an ordinal-vowel phrase also matches,
the final `contains_character` is the vowel of the last firing vowel rule,
not the letter captured by the earlier containing rule.  For `word_count`:
a firing spelled-out number rule overwrites the numeric rule's value. -/
theorem claim_C3_later_rule_overwrites (q : List Char) (f : Filters)
    (hok : parseQuery q = .ok f) :
    (∀ v, (search matchContainAt (q.map Char.toLower)).isSome = true →
      vowelOf (q.map Char.toLower) = some v →
      f.contains_character = some [v]) ∧
    (∀ m : Nat, spelledWordCount (q.map Char.toLower) = some m →
      f.word_count = some (m : Int)) := by
  obtain ⟨f0, htail, hfpal, hfwc, -⟩ := parse_ok_tail q f hok
  constructor
  · intro v _ hv
    exact tail_cc_vowel _ _ _ _ hv htail
  · intro m hsp
    rw [tail_wc _ _ _ htail, hfwc, applyLonger_wc, base_wc_spelled _ _ hsp]

/-- Witness for C3: on
`"two words containing letter x and the second vowel"` the containing rule
captures `x` but the later second-vowel rule overwrites it with `e`, and the
spelled-out `two words` sets `word_count = 2`. -/
theorem claim_C3_witness :
    ({ word_count := some 2, contains_character := some ['e'] } :
      Filters).contains_character = some ['e'] ∧
    ({ word_count := some 2, contains_character := some ['e'] } :
      Filters).word_count = some 2 := by
  have h := claim_C3_later_rule_overwrites
    "two words containing letter x and the second vowel".data
    { word_count := some 2, contains_character := some ['e'] } rfl
  exact ⟨h.1 'e' rfl rfl, h.2 2 rfl⟩

/-! ## Helper lemmas: scanning over digit segments, and claim C2 -/

theorem scan_of_some {α : Type} (m : Bool → List Char → Option α)
    (s : List Char) (b : Bool) (a : α) (h : m b s = some a) :
    scan m s b = some a := by
  cases s <;> simp [scan, h]

theorem scan_digits {α : Type} (m : Bool → List Char → Option α)
    (hm : ∀ d (b : Bool) r, d.isDigit = true → m b (d :: r) = none) :
    ∀ ds, (∀ c ∈ ds, c.isDigit = true) → ds ≠ [] →
      ∀ rest b, scan m (ds ++ rest) b = scan m rest true := by
  intro ds
  induction ds with
  | nil => intro _ h; exact absurd rfl h
  | cons d ds' ih =>
    intro hds _ rest b
    have hd : d.isDigit = true := hds d (by simp)
    have hw : isWordChar d = true := by
      simp [isWordChar, Char.isAlphanum, hd]
    rw [List.cons_append, scan, hm d b _ hd]
    rcases hds' : ds' with _ | ⟨e, es⟩
    · simp [hw]
    · rw [← hds', hw]
      exact ih (fun c hc => hds c (List.mem_cons_of_mem d hc))
        (by simp [hds']) rest true

theorem char_digit_not (d c : Char) (hd : d.isDigit = true)
    (hc : c.isDigit = false) : ¬(d = c) := by
  intro he
  subst he
  rw [hd] at hc
  cases hc

theorem digit_not_space (c : Char) (h : c.isDigit = true) :
    isPySpace c = false := by
  unfold isPySpace
  have h1 : ¬(c = ' ') := char_digit_not c ' ' h (by decide)
  have h2 : ¬(c = '\t') := char_digit_not c '\t' h (by decide)
  have h3 : ¬(c = '\n') := char_digit_not c '\n' h (by decide)
  have h4 : ¬(c = '\r') := char_digit_not c '\r' h (by decide)
  have h5 : ¬(c = '\x0b') := char_digit_not c '\x0b' h (by decide)
  have h6 : ¬(c = '\x0c') := char_digit_not c '\x0c' h (by decide)
  simp [h1, h2, h3, h4, h5, h6]

theorem digit_toLower (c : Char) (h : c.isDigit = true) :
    Char.toLower c = c := by
  have hv : c.val ≤ 57 := by
    simp only [Char.isDigit] at h
    exact of_decide_eq_true ((Bool.and_eq_true _ _).mp h).2
  have hn : c.toNat ≤ 57 := by
    rw [UInt32.le_def, BitVec.le_def] at hv
    exact hv
  unfold Char.toLower
  rw [if_neg]
  intro ⟨h1, _⟩
  omega

theorem lower_digits (ds : List Char) (hds : ∀ c ∈ ds, c.isDigit = true) :
    ds.map Char.toLower = ds := by
  induction ds with
  | nil => rfl
  | cons d ds' ih =>
    simp only [List.map_cons, digit_toLower d (hds d (by simp)),
      ih (fun c hc => hds c (by simp [hc]))]

theorem dropLit_self (l r : List Char) : dropLit l (l ++ r) = some r := by
  induction l with
  | nil => rfl
  | cons c cs ih => simp [dropLit, ih]

theorem takeWhile_all_append (p : Char → Bool) (xs : List Char)
    (h : ∀ c ∈ xs, p c = true) (y : Char) (r : List Char)
    (hy : p y = false) :
    (xs ++ y :: r).takeWhile p = xs ∧ (xs ++ y :: r).dropWhile p = y :: r := by
  induction xs with
  | nil => simp [List.takeWhile_cons, List.dropWhile_cons, hy]
  | cons x xs' ih =>
    have hx : p x = true := h x (by simp)
    have := ih fun c hc => h c (by simp [hc])
    simp [List.takeWhile_cons, List.dropWhile_cons, hx, this]

theorem cmp_digit_none (w : List Char) (c0 : Char) (hw : w.head? = some c0)
    (h0 : c0.isDigit = false) :
    ∀ (d : Char) (b : Bool) r, d.isDigit = true →
      matchCmpAt w b (d :: r) = none := by
  intro d b r hd
  unfold matchCmpAt
  rcases b with _ | _
  · rcases w with _ | ⟨c, cs⟩
    · cases hw
    · simp only [List.head?_cons, Option.some.injEq] at hw
      subst hw
      have h' : ¬(d = c) := char_digit_not d c hd h0
      simp [dropLit, h']
  · rfl

theorem atKind_digit_none (kw : List Char) :
    ∀ (d : Char) (b : Bool) r, d.isDigit = true →
      matchAtKindAt kw b (d :: r) = none := by
  intro d b r hd
  unfold matchAtKindAt
  rcases b with _ | _
  · have h' : ¬(d = 'a') := char_digit_not d 'a' hd (by decide)
    simp [dropLit, h']
  · rfl

theorem cmp_success (w ds : List Char) (hne : ds ≠ [])
    (hds : ∀ c ∈ ds, c.isDigit = true) :
    matchCmpAt w false
      (w ++ [' ', 't', 'h', 'a', 'n', ' '] ++ ds ++
        [' ', 'c', 'h', 'a', 'r', 'a', 'c', 't', 'e', 'r', 's']) =
      some (digitsToNat ds) := by
  obtain ⟨d, ds', rfl⟩ : ∃ d ds', ds = d :: ds' := by
    rcases ds with _ | ⟨d, ds'⟩
    · exact absurd rfl hne
    · exact ⟨d, ds', rfl⟩
  have hd : d.isDigit = true := hds d (by simp)
  have htd := takeWhile_all_append Char.isDigit (d :: ds') hds ' '
    ['c', 'h', 'a', 'r', 'a', 'c', 't', 'e', 'r', 's'] (by decide)
  have e1 : spaces1 ([' ', 't', 'h', 'a', 'n', ' '] ++ ((d :: ds') ++
      [' ', 'c', 'h', 'a', 'r', 'a', 'c', 't', 'e', 'r', 's'])) =
      some (['t', 'h', 'a', 'n'] ++ (' ' :: ((d :: ds') ++
        [' ', 'c', 'h', 'a', 'r', 'a', 'c', 't', 'e', 'r', 's']))) := rfl
  have e3 : spaces1 (' ' :: ((d :: ds') ++
      [' ', 'c', 'h', 'a', 'r', 'a', 'c', 't', 'e', 'r', 's'])) =
      some ((d :: ds') ++
        [' ', 'c', 'h', 'a', 'r', 'a', 'c', 't', 'e', 'r', 's']) := by
    show some (List.dropWhile isPySpace ((d :: ds') ++
      [' ', 'c', 'h', 'a', 'r', 'a', 'c', 't', 'e', 'r', 's'])) = _
    rw [List.cons_append, List.dropWhile_cons, digit_not_space d hd]
    simp
  have e4 : digits1 ((d :: ds') ++
      [' ', 'c', 'h', 'a', 'r', 'a', 'c', 't', 'e', 'r', 's']) =
      some (digitsToNat (d :: ds'),
        ' ' :: ['c', 'h', 'a', 'r', 'a', 'c', 't', 'e', 'r', 's']) := by
    rw [List.cons_append, digits1]
    rw [← List.cons_append, htd.1, htd.2]
    simp [hd]
  unfold matchCmpAt
  rw [if_neg (by simp), List.append_assoc, List.append_assoc, dropLit_self]
  simp only [e1, dropLit_self, e3, e4]
  rfl

theorem shorter_none_on_longer (ds : List Char) (hne : ds ≠ [])
    (hds : ∀ c ∈ ds, c.isDigit = true) :
    search (matchCmpAt ['s', 'h', 'o', 'r', 't', 'e', 'r'])
      ("longer than ".data ++ ds ++ " characters".data) = none := by
  have h2 := scan_digits (matchCmpAt ['s', 'h', 'o', 'r', 't', 'e', 'r'])
    (cmp_digit_none _ 's' rfl (by decide)) ds hds hne " characters".data false
  calc search (matchCmpAt ['s', 'h', 'o', 'r', 't', 'e', 'r'])
        ("longer than ".data ++ ds ++ " characters".data)
      = scan (matchCmpAt ['s', 'h', 'o', 'r', 't', 'e', 'r'])
          (ds ++ " characters".data) false := rfl
    _ = scan (matchCmpAt ['s', 'h', 'o', 'r', 't', 'e', 'r'])
          " characters".data true := h2
    _ = none := rfl

theorem least_none_on_longer (ds : List Char) (hne : ds ≠ [])
    (hds : ∀ c ∈ ds, c.isDigit = true) :
    search (matchAtKindAt ['l', 'e', 'a', 's', 't'])
      ("longer than ".data ++ ds ++ " characters".data) = none := by
  have h2 := scan_digits (matchAtKindAt ['l', 'e', 'a', 's', 't'])
    (atKind_digit_none _) ds hds hne " characters".data false
  calc search (matchAtKindAt ['l', 'e', 'a', 's', 't'])
        ("longer than ".data ++ ds ++ " characters".data)
      = scan (matchAtKindAt ['l', 'e', 'a', 's', 't'])
          (ds ++ " characters".data) false := rfl
    _ = scan (matchAtKindAt ['l', 'e', 'a', 's', 't'])
          " characters".data true := h2
    _ = none := rfl

theorem most_none_on_shorter (ds : List Char) (hne : ds ≠ [])
    (hds : ∀ c ∈ ds, c.isDigit = true) :
    search (matchAtKindAt ['m', 'o', 's', 't'])
      ("shorter than ".data ++ ds ++ " characters".data) = none := by
  have h2 := scan_digits (matchAtKindAt ['m', 'o', 's', 't'])
    (atKind_digit_none _) ds hds hne " characters".data false
  calc search (matchAtKindAt ['m', 'o', 's', 't'])
        ("shorter than ".data ++ ds ++ " characters".data)
      = scan (matchAtKindAt ['m', 'o', 's', 't'])
          (ds ++ " characters".data) false := rfl
    _ = scan (matchAtKindAt ['m', 'o', 's', 't'])
          " characters".data true := h2
    _ = none := rfl

theorem longer_some (ds : List Char) (hne : ds ≠ [])
    (hds : ∀ c ∈ ds, c.isDigit = true) :
    search (matchCmpAt ['l', 'o', 'n', 'g', 'e', 'r'])
      ("longer than ".data ++ ds ++ " characters".data) =
      some (digitsToNat ds) := by
  apply scan_of_some
  exact cmp_success ['l', 'o', 'n', 'g', 'e', 'r'] ds hne hds

theorem shorter_some (ds : List Char) (hne : ds ≠ [])
    (hds : ∀ c ∈ ds, c.isDigit = true) :
    search (matchCmpAt ['s', 'h', 'o', 'r', 't', 'e', 'r'])
      ("shorter than ".data ++ ds ++ " characters".data) =
      some (digitsToNat ds) := by
  apply scan_of_some
  exact cmp_success ['s', 'h', 'o', 'r', 't', 'e', 'r'] ds hne hds

theorem lower_longer_query (ds : List Char)
    (hds : ∀ c ∈ ds, c.isDigit = true) :
    ("longer than ".data ++ ds ++ " characters".data).map Char.toLower =
      "longer than ".data ++ ds ++ " characters".data := by
  have hA : "longer than ".data.map Char.toLower = "longer than ".data := rfl
  have hB : " characters".data.map Char.toLower = " characters".data := rfl
  rw [List.map_append, List.map_append, hA, hB, lower_digits ds hds]

theorem lower_shorter_query (ds : List Char)
    (hds : ∀ c ∈ ds, c.isDigit = true) :
    ("shorter than ".data ++ ds ++ " characters".data).map Char.toLower =
      "shorter than ".data ++ ds ++ " characters".data := by
  have hA : "shorter than ".data.map Char.toLower = "shorter than ".data := rfl
  have hB : " characters".data.map Char.toLower = " characters".data := rfl
  rw [List.map_append, List.map_append, hA, hB, lower_digits ds hds]

/-- C2: for every non-negative integer `N` (given by its non-empty decimal
digit string), `parse("longer than N characters")` succeeds and sets
`min_length = N + 1`; for every `N ≥ 1`, `parse("shorter than N characters")`
succeeds and sets `max_length = N - 1`; and
`parse("shorter than 0 characters")` fails with `InvalidLengthConstraint`, an
error distinct from `UnrecognizedQuery`. -/
theorem claim_C2_length_bound_arithmetic (ds : List Char) (hne : ds ≠ [])
    (hds : ∀ c ∈ ds, c.isDigit = true) :
    (∃ f, parseQuery ("longer than ".data ++ ds ++ " characters".data) =
        .ok f ∧ f.min_length = some ((digitsToNat ds : Int) + 1)) ∧
    (1 ≤ digitsToNat ds →
      ∃ f, parseQuery ("shorter than ".data ++ ds ++ " characters".data) =
        .ok f ∧ f.max_length = some ((digitsToNat ds : Int) - 1)) ∧
    parseQuery "shorter than 0 characters".data =
      .error .invalidLengthConstraint ∧
    ParseError.invalidLengthConstraint ≠ ParseError.unrecognizedQuery := by
  refine ⟨?_, ?_, rfl, by decide⟩
  · set Q := "longer than ".data ++ ds ++ " characters".data with hQ
    have hlow : Q.map Char.toLower = Q := lower_longer_query ds hds
    have hmin : (applyLonger Q (baseStages Q)).min_length =
        some ((digitsToNat ds : Int) + 1) := by
      simp [applyLonger, longer_some ds hne hds]
    have hfmin : (vowelFilters Q (applyContain Q (applyMost Q
        (applyLeast Q (applyLonger Q (baseStages Q)))))).min_length =
        some ((digitsToNat ds : Int) + 1) := by
      rw [vowel_min]
      simp [applyLeast, least_none_on_longer ds hne hds, hmin]
    refine ⟨_, ?_, hfmin⟩
    simp only [parseQuery, hlow, shorter_none_on_longer ds hne hds]
    apply tail_ok
    intro he
    rw [he] at hfmin
    cases hfmin
  · intro hge
    set Q := "shorter than ".data ++ ds ++ " characters".data with hQ
    have hlow : Q.map Char.toLower = Q := lower_shorter_query ds hds
    have hfmax : (vowelFilters Q (applyContain Q (applyMost Q
        (applyLeast Q { applyLonger Q (baseStages Q) with
          max_length := some ((digitsToNat ds : Int) - 1) })))).max_length =
        some ((digitsToNat ds : Int) - 1) := by
      rw [vowel_max]
      rcases hL : search (matchAtKindAt ['l', 'e', 'a', 's', 't']) Q
          with _ | n <;>
        simp [applyLeast, applyMost, hL, most_none_on_shorter ds hne hds]
    refine ⟨_, ?_, hfmax⟩
    simp only [parseQuery, hlow, shorter_some ds hne hds]
    rw [if_neg (by omega)]
    apply tail_ok
    intro he
    rw [he] at hfmax
    cases hfmax

/-- Witness for C2 at `N = 10` and `N = 1`:
`parse("longer than 10 characters").min_length = 11` and
`parse("shorter than 1 characters").max_length = 0`. -/
theorem claim_C2_witness :
    (∃ f, parseQuery "longer than 10 characters".data = .ok f ∧
        f.min_length = some 11) ∧
      ∃ f, parseQuery "shorter than 1 characters".data = .ok f ∧
        f.max_length = some 0 := by
  have h10 := claim_C2_length_bound_arithmetic ['1', '0'] (by decide)
    (by decide)
  have h1 := claim_C2_length_bound_arithmetic ['1'] (by decide) (by decide)
  exact ⟨h10.1, h1.2.1 (by decide)⟩
